import Mathlib

/-!
Verification of the document-tree pruning engine of `clear_hp.py` and
`clear_add_deleted.py`.

The two Python files implement the same pipeline in two variants; where they
differ, definitions below carry the suffix `_hp` (for `clear_hp.py`) or `_ad`
(for `clear_add_deleted.py`).

The document model mirrors lxml's: an element owns a tag, an attribute map,
its directly-owned text (`.text`), an ordered child sequence, and the text
that follows it inside its parent (`.tail`).  A comment owns its text and a
tail.  `parent.remove(child)` in lxml detaches the child together with its
tail; every removal in the sources goes through that operation, so dropping a
node from a child sequence here also drops its tail string.

The Python functions mutate trees in place via snapshot iteration
(`list(soup.iter())`, `soup.xpath(...)`).  Each is embedded as a pure
structural recursion computing the same final tree:
 - `remove_empty_elements` visits every node in reverse document order and
   deletes it if it is vacuous *at visit time*; since children are visited
   strictly before their parent and a vacuous node has no children, this is
   exactly the bottom-up prune-children-then-test recursion used here.
 - the xpath-snapshot removal loops (`remove_common_footers`,
   `remove_similar_elements`, `compare_endings`) test each element against
   data computed before any removal of its own descendants, so the net effect
   on the document equals the corresponding recursive filter; fragments
   captured for the audit trail additionally include matches that sit inside
   an already-detached subtree (their `getparent()` is still non-null), which
   the fragment collectors below reproduce.

Python string operations are re-implemented over character lists so that all
definitions evaluate inside the kernel: `.strip()` is `pyStrip`, `in` on
strings is `strContains`, `.endswith` is `strEndsWith`.

The HTML parser (lxml's `html.fromstring`) is an external collaborator; the
record-level functions take it as an explicit parameter
`parser : String → Option Node`, with `none` standing for a failed parse.
-/

mutual

inductive Node where
  | element (tag : String) (attrs : List (String × String)) (text : String)
      (children : NodeList) (tail : String) : Node
  | comment (text : String) (tail : String) : Node

inductive NodeList where
  | nil : NodeList
  | cons : Node → NodeList → NodeList

end

/-- The text that follows the node inside its parent (lxml `.tail`). -/
def Node.tailText : Node → String
  | .element _ _ _ _ tl => tl
  | .comment _ tl => tl

/-- Whether the node is a comment (lxml `isinstance(e, HtmlComment)`). -/
def Node.isComment : Node → Bool
  | .element _ _ _ _ _ => false
  | .comment _ _ => true

/-- lxml `len(element)`: the number of children (comments count). -/
def NodeList.len : NodeList → Nat
  | .nil => 0
  | .cons _ cs => cs.len + 1

/-- Python `list.__contains__` / dict-key membership for strings. -/
def memStr (s : String) : List String → Bool
  | [] => false
  | k :: ks => (k == s) || memStr s ks

/-- Whether `pre` is a prefix of `l` (character lists). -/
def startsWithChars : List Char → List Char → Bool
  | [], _ => true
  | _ :: _, [] => false
  | p :: ps, c :: cs => (p == c) && startsWithChars ps cs

/-- Whether `sub` occurs contiguously inside `l`: Python `sub in l`. -/
def containsChars (sub : List Char) : List Char → Bool
  | [] => startsWithChars sub []
  | c :: cs => startsWithChars sub (c :: cs) || containsChars sub cs

/-- Python `sub in hay` on strings (also XPath `contains(hay, sub)`). -/
def strContains (hay sub : String) : Bool :=
  containsChars sub.data hay.data

/-- Python `hay.endswith(suf)`. -/
def strEndsWith (hay suf : String) : Bool :=
  startsWithChars suf.data.reverse hay.data.reverse

/-- Python `str.strip()`: drop leading and trailing whitespace. -/
def pyStrip (s : String) : String :=
  ⟨((s.data.dropWhile Char.isWhitespace).reverse.dropWhile Char.isWhitespace).reverse⟩

mutual

/-- lxml `element.text_content()` (XPath string value): the element's own
text followed by, for each child in order, the child's string value (empty
for comments) and the child's tail.  On a comment it is the comment text. -/
def text_content : Node → String
  | .element _ _ tx cs _ => tx ++ textList cs
  | .comment s _ => s
termination_by structural t => t

/-- String value contributed by a child sequence to its owner. -/
def textList : NodeList → String
  | .nil => ""
  | .cons (.element tg a tx cs tl) rest =>
      (text_content (.element tg a tx cs tl)) ++ tl ++ textList rest
  | .cons (.comment _ tl) rest => tl ++ textList rest
termination_by structural l => l

end

/-- `clear_add_deleted.is_empty_element`: a comment is always empty; an
element is empty iff it has no stripped text content, no children and no
attributes. -/
def is_empty_element_ad : Node → Bool
  | .comment _ _ => true
  | .element tg a tx cs tl =>
      (pyStrip (text_content (.element tg a tx cs tl)) == "") && cs.len == 0 && a.isEmpty

/-- `clear_hp.is_empty_element`: a comment is never empty; an element is
empty iff it has no stripped text content and no children (attributes are
ignored). -/
def is_empty_element_hp : Node → Bool
  | .comment _ _ => false
  | .element tg a tx cs tl =>
      (pyStrip (text_content (.element tg a tx cs tl)) == "") && cs.len == 0

mutual

/-- One pass of `remove_empty_elements` below a kept node: children are
pruned bottom-up and then dropped (together with their tails) when the
vacuousness predicate holds for the pruned child — exactly the reverse
document-order snapshot loop of the source, in which every descendant is
visited before its parent and deleted nodes always have a parent. -/
def pruneNode (vac : Node → Bool) : Node → Node
  | .element tg a tx cs tl => .element tg a tx (pruneList vac cs) tl
  | .comment s tl => .comment s tl
termination_by structural t => t

/-- Prune a child sequence: see `pruneNode`. -/
def pruneList (vac : Node → Bool) : NodeList → NodeList
  | .nil => .nil
  | .cons c cs =>
    let c' := pruneNode vac c
    if vac c' then pruneList vac cs else .cons c' (pruneList vac cs)
termination_by structural l => l

end

/-- `clear_add_deleted.remove_empty_elements` on a (non-`None`) tree: the
root is skipped because its `getparent()` is `None`. -/
def remove_empty_elements_ad (soup : Node) : Node :=
  pruneNode is_empty_element_ad soup

/-- `clear_hp.remove_empty_elements`: same traversal with the
comment-preserving, attribute-ignoring emptiness predicate. -/
def remove_empty_elements_hp (soup : Node) : Node :=
  pruneNode is_empty_element_hp soup

example :
    remove_empty_elements_hp
      (.element "div" [] ""
        (.cons (.element "span" [] "" .nil "") (.cons (.element "p" [] "hi" .nil "") .nil)) "")
    = .element "div" [] "" (.cons (.element "p" [] "hi" .nil "") .nil) "" := rfl

example :
    remove_empty_elements_ad
      (.element "div" [] ""
        (.cons (.element "span" [] "" (.cons (.comment "c" "") .nil) "") .nil) "")
    = .element "div" [] "" .nil "" := rfl

/-- One structural boilerplate rule: `//tag` selects every element with that
tag; `//div[contains(@attr, 'sub')]` selects every `div` whose attribute
`attr` contains `sub` (a missing attribute reads as the empty string). -/
inductive FooterRule where
  | tagRule (tag : String) : FooterRule
  | divAttrRule (attr : String) (sub : String) : FooterRule
deriving DecidableEq

/-- XPath attribute read `@attr`: the first binding's value, else `""`. -/
def attrLookup (attr : String) : List (String × String) → String
  | [] => ""
  | (k, v) :: rest => if k == attr then v else attrLookup attr rest

/-- Whether an element is selected by a footer rule (comments never are). -/
def ruleMatches (r : FooterRule) : Node → Bool
  | .element tg a _ _ _ =>
      match r with
      | .tagRule t => tg == t
      | .divAttrRule at' sub => (tg == "div") && strContains (attrLookup at' a) sub
  | .comment _ _ => false

/-- `clear_add_deleted.COMMON_FOOTERS_XPATH`, entry for entry (note the
absent class-`bottom` and class-`legal` rules and the duplicated
id-`legal` rule). -/
def COMMON_FOOTERS_XPATH_ad : List FooterRule :=
  [ .tagRule "footer",
    .divAttrRule "class" "footer",
    .divAttrRule "id" "footer",
    .divAttrRule "id" "bottom",
    .divAttrRule "class" "copyright",
    .divAttrRule "id" "copyright",
    .divAttrRule "id" "legal",
    .divAttrRule "id" "legal" ]

/-- `clear_hp.COMMON_FOOTERS_XPATH`, entry for entry. -/
def COMMON_FOOTERS_XPATH_hp : List FooterRule :=
  [ .tagRule "footer",
    .divAttrRule "class" "footer",
    .divAttrRule "id" "footer",
    .divAttrRule "class" "bottom",
    .divAttrRule "id" "bottom",
    .divAttrRule "class" "copyright",
    .divAttrRule "id" "copyright",
    .divAttrRule "class" "legal",
    .divAttrRule "id" "legal" ]

/-- Serialization of an attribute list, as lxml writes it. -/
def serializeAttrs : List (String × String) → String
  | [] => ""
  | (k, v) :: rest => " " ++ k ++ "=\"" ++ v ++ "\"" ++ serializeAttrs rest

mutual

/-- lxml `html.tostring(node, encoding='unicode', method='html')`: the node's
markup followed by its tail (`with_tail` defaults to `True`); every fragment
recorded by the sources is serialized *before* the node is detached. -/
def serializeNode : Node → String
  | .element tg a tx cs tl =>
      "<" ++ tg ++ serializeAttrs a ++ ">" ++ tx ++ serializeList cs ++ "</" ++ tg ++ ">" ++ tl
  | .comment s tl => "<!--" ++ s ++ "-->" ++ tl
termination_by structural t => t

/-- Serialization of a child sequence. -/
def serializeList : NodeList → String
  | .nil => ""
  | .cons c cs => serializeNode c ++ serializeList cs
termination_by structural l => l

end

mutual

/-- Net effect on the document of removing, for one rule, every selected
element that still has a parent: a selected child is dropped with its whole
subtree (and tail); selected elements inside an already-removed subtree are
detached from that dead subtree only, which does not affect the document. -/
def removeMatchingNode (r : FooterRule) : Node → Node
  | .element tg a tx cs tl => .element tg a tx (removeMatchingList r cs) tl
  | .comment s tl => .comment s tl
termination_by structural t => t

/-- See `removeMatchingNode`. -/
def removeMatchingList (r : FooterRule) : NodeList → NodeList
  | .nil => .nil
  | .cons c cs =>
    if ruleMatches r c then removeMatchingList r cs
    else .cons (removeMatchingNode r c) (removeMatchingList r cs)
termination_by structural l => l

end

mutual

/-- Fragments recorded for one rule: every selected element strictly below
the given node, in document order, serialized with its subtree as it stood
when visited (removals never alter a visited node's own subtree).  Elements
inside an already-detached selected subtree still have a parent and are
recorded too, exactly as in the snapshot loop of the source. -/
def collectMatchingNode (r : FooterRule) : Node → List String
  | .element _ _ _ cs _ => collectMatchingList r cs
  | .comment _ _ => []
termination_by structural t => t

/-- See `collectMatchingNode`. -/
def collectMatchingList (r : FooterRule) : NodeList → List String
  | .nil => []
  | .cons c cs =>
    (if ruleMatches r c then [serializeNode c] else [])
      ++ collectMatchingNode r c ++ collectMatchingList r cs
termination_by structural l => l

end

/-- Apply the footer rules in order, threading the tree and appending each
rule's fragments (collected against the tree as that rule found it). -/
def applyFooterRules : List FooterRule → Node → Node × List String
  | [], t => (t, [])
  | r :: rs, t =>
    let rest := applyFooterRules rs (removeMatchingNode r t)
    (rest.1, collectMatchingNode r t ++ rest.2)

/-- `clear_add_deleted.remove_common_footers` on a (non-`None`) tree:
returns the pruned tree and the recorded fragments. -/
def remove_common_footers_ad (soup : Node) : Node × List String :=
  applyFooterRules COMMON_FOOTERS_XPATH_ad soup

/-- `clear_hp.remove_common_footers` (records nothing). -/
def remove_common_footers_hp (soup : Node) : Node :=
  (applyFooterRules COMMON_FOOTERS_XPATH_hp soup).1

mutual

/-- The keys of `parent_text_dict`: the stripped text content of every
element of the reference document (`soup.xpath('//*')` includes the root),
kept when non-empty, in document order. -/
def nonEmptyTextsNode : Node → List String
  | .element tg a tx cs tl =>
    let s := pyStrip (text_content (.element tg a tx cs tl))
    (if s == "" then [] else [s]) ++ nonEmptyTextsList cs
  | .comment _ _ => []
termination_by structural t => t

/-- See `nonEmptyTextsNode`. -/
def nonEmptyTextsList : NodeList → List String
  | .nil => []
  | .cons c cs => nonEmptyTextsNode c ++ nonEmptyTextsList cs
termination_by structural l => l

end

mutual

/-- Net effect of the duplicate-removal walk on the target document: every
non-root element whose stripped text content (computed on its yet-untouched
subtree, as the document-order snapshot loop guarantees) is a key of the
reference map is dropped with its subtree and tail; comments are never
selected by `//*`.  The root is skipped (`getparent()` is `None`). -/
def similarWalkNode (keys : List String) : Node → Node
  | .element tg a tx cs tl => .element tg a tx (similarWalkList keys cs) tl
  | .comment s tl => .comment s tl
termination_by structural t => t

/-- See `similarWalkNode`. -/
def similarWalkList (keys : List String) : NodeList → NodeList
  | .nil => .nil
  | .cons c cs =>
    if !c.isComment && memStr (pyStrip (text_content c)) keys then
      similarWalkList keys cs
    else .cons (similarWalkNode keys c) (similarWalkList keys cs)
termination_by structural l => l

end

mutual

/-- Fragments recorded by the duplicate-removal walk: every matched non-root
element in document order (matches inside an already-detached matched
subtree still have a parent and are recorded as well). -/
def similarCollectNode (keys : List String) : Node → List String
  | .element _ _ _ cs _ => similarCollectList keys cs
  | .comment _ _ => []
termination_by structural t => t

/-- See `similarCollectNode`. -/
def similarCollectList (keys : List String) : NodeList → List String
  | .nil => []
  | .cons c cs =>
    (if !c.isComment && memStr (pyStrip (text_content c)) keys then
        [serializeNode c]
      else [])
      ++ similarCollectNode keys c ++ similarCollectList keys cs
termination_by structural l => l

end

/-- `clear_add_deleted.remove_similar_elements(parent_soup, child_soup)` for
non-`None` arguments: build the reference text map from `parent_soup` (the
`//*` snapshot includes its root), remove matching elements from
`child_soup` (recording fragments; the target's root is never removed nor
recorded, its `getparent()` being `None`), then run the emptiness pruner on
`child_soup`.  Only the target is mutated. -/
def remove_similar_elements_ad (parent_soup child_soup : Node) : Node × List String :=
  let keys := nonEmptyTextsList (.cons parent_soup .nil)
  (remove_empty_elements_ad (similarWalkNode keys child_soup),
   similarCollectNode keys child_soup)

/-- `clear_hp.remove_similar_elements` (records nothing, prunes with the
`clear_hp` emptiness predicate). -/
def remove_similar_elements_hp (parent_soup child_soup : Node) : Node :=
  let keys := nonEmptyTextsList (.cons parent_soup .nil)
  remove_empty_elements_hp (similarWalkNode keys child_soup)

/-- First non-empty direct text of an element whose own text is empty:
scan the children's tails in order. -/
def firstTailText : NodeList → String
  | .nil => ""
  | .cons c cs => if c.tailText == "" then firstTailText cs else c.tailText

/-- Whether an element is selected by `//*[contains(text(), needle)]`:
libxml2 converts the node-set `text()` to the string value of its first node
in document order, i.e. the element's own text if non-empty, else the first
non-empty child tail; an empty node-set reads as `""`, and
`contains("", s)` holds only for empty `s`. -/
def tailMatches (needle : String) : Node → Bool
  | .element _ _ tx cs _ =>
      strContains (if tx == "" then firstTailText cs else tx) needle
  | .comment _ _ => false

mutual

/-- Remove the document-order-last element selected by
`//*[contains(text(), needle)]` from a subtree rooted at this node.
`none`: no selected element in the subtree.  `some (some n', f)`: the last
selected element was a proper descendant, `n'` is the updated node and `f`
the fragment serialized before detachment.  `some (none, f)`: the node
itself is the last selected element and is removed entirely (with its
subtree and tail). -/
def tailRemoveNode (needle : String) : Node → Option (Option Node × String)
  | .element tg a tx cs tl =>
      match tailRemoveList needle cs with
      | some (cs', f) => some (some (.element tg a tx cs' tl), f)
      | none =>
        if tailMatches needle (.element tg a tx cs tl) then
          some (none, serializeNode (.element tg a tx cs tl))
        else none
  | .comment _ _ => none
termination_by structural t => t

/-- Scan a child sequence from the right for the last selected element
(document order puts later siblings and their subtrees last). -/
def tailRemoveList (needle : String) : NodeList → Option (NodeList × String)
  | .nil => none
  | .cons c cs =>
      match tailRemoveList needle cs with
      | some (cs', f) => some (.cons c cs', f)
      | none =>
        match tailRemoveNode needle c with
        | some (some c', f) => some (.cons c' cs, f)
        | some (none, f) => some (cs, f)
        | none => none
termination_by structural l => l

end

/-- `clear_add_deleted.compare_endings(parent_soup, child_soup)` for
non-`None` arguments: when the parent's stripped text ends with the child's
stripped text, the last element of the *child* document whose direct text
contains the child text is removed outright — unless it is the child's root,
whose `getparent()` is `None`, in which case nothing happens (any selected
proper descendant comes after the root in document order, so the root is
last only when it is the sole selected element).  Returns the updated child
document and the recorded fragments. -/
def compare_endings_ad (parent_soup child_soup : Node) : Node × List String :=
  let parent_text := pyStrip (text_content parent_soup)
  let child_text := pyStrip (text_content child_soup)
  if strEndsWith parent_text child_text then
    match child_soup with
    | .element tg a tx cs tl =>
        match tailRemoveList child_text cs with
        | some (cs', f) => (.element tg a tx cs' tl, [f])
        | none => (.element tg a tx cs tl, [])
    | .comment s tl => (.comment s tl, [])
  else (child_soup, [])

/-- `clear_hp.compare_endings(parent_soup, child_soup)`: acts only when the
two stripped texts are exactly equal, then removes the last element of the
child document whose direct text contains the parent text (root excepted);
records nothing and returns the child document. -/
def compare_endings_hp (parent_soup child_soup : Node) : Node :=
  let parent_end := pyStrip (text_content parent_soup)
  let child_end := pyStrip (text_content child_soup)
  if parent_end == child_end then
    match child_soup with
    | .element tg a tx cs tl =>
        match tailRemoveList parent_end cs with
        | some (cs', _) => .element tg a tx cs' tl
        | none => .element tg a tx cs tl
    | .comment s tl => .comment s tl
  else child_soup

/-- One page record.  `url` identifies the page; `p_url` is `none` when the
key is absent, `some ""` for a parent record, `some u` (non-empty) for a
child of the record whose `url` is `u`.  Output fields are `none` when the
key is absent from the dict. -/
structure Record where
  url : String
  p_url : Option String
  body_html : Option String
  body_html_new : Option String := none
  body_new : Option String := none
  body_html_deleted : Option String := none
  body_deleted : Option String := none

/-- Python truthiness of an optional string (`None` and `""` are falsy). -/
def truthyOptStr : Option String → Bool
  | none => false
  | some s => s != ""

/-- `clear_add_deleted.parse_html`: `html.fromstring(content) if content
else None`; the external parser is a parameter. -/
def parse_html_ad (parser : String → Option Node) (content : Option String) : Option Node :=
  match content with
  | none => none
  | some s => if s == "" then none else parser s

/-- Python `''.join(l)`. -/
def joinStrings : List String → String
  | [] => ""
  | s :: rest => s ++ joinStrings rest

/-- `body_deleted` entry for one fragment:
`html.fromstring(content).text_content().strip()`; a fragment the parser
cannot reread contributes nothing (fragments are never empty strings). -/
def fragmentText (parser : String → Option Node) (content : String) : String :=
  match parser content with
  | some t => pyStrip (text_content t)
  | none => ""

/-- `clear_add_deleted.process_parent_company(company, child_data)`.
The representative child is the first record of `child_data` with a truthy
`p_url`; the child document is freshly parsed, then `compare_endings`
removes the matched tail element from that *child* document while
`remove_similar_elements` prunes the parent against the (tail-trimmed)
child's text map.  Fragments from footers, the tail step and the duplicate
step are concatenated in that order into the audit fields. -/
def process_parent_company (parser : String → Option Node)
    (company : Record) (child_data : List Record) : Record :=
  let parent_soup := parse_html_ad parser company.body_html
  let potential_children := child_data.filter (fun c => truthyOptStr c.p_url)
  let random_child_soup :=
    match potential_children with
    | [] => none
    | ch :: _ => parse_html_ad parser ch.body_html
  match parent_soup with
  | some ps =>
    let footers := remove_common_footers_ad ps
    let afterChild :=
      match random_child_soup with
      | some cs0 =>
        let tailStep := compare_endings_ad footers.1 cs0
        let simStep := remove_similar_elements_ad tailStep.1 footers.1
        (simStep.1, tailStep.2 ++ simStep.2)
      | none => (footers.1, [])
    let final := remove_empty_elements_ad afterChild.1
    let deleted := footers.2 ++ afterChild.2
    { company with
        body_html_new := some (serializeNode final),
        body_new := some (pyStrip (text_content final)),
        body_html_deleted := some (joinStrings deleted),
        body_deleted := some (joinStrings (deleted.map (fragmentText parser))) }
  | none =>
    { company with
        body_html_new := some "", body_new := some "",
        body_html_deleted := some "", body_deleted := some "" }

/-- `clear_add_deleted.process_child_company(company, parent_data)`.  The
reference is the first record of `parent_data` whose `p_url` is the empty
string, re-parsed from its **raw** `body_html` (not from its pruned
output).  On a successful parse of the child the audit fields are popped
from the record; on a failed parse only the two output fields are set. -/
def process_child_company (parser : String → Option Node)
    (company : Record) (parent_data : List Record) : Record :=
  let potential_parents := parent_data.filter (fun p => p.p_url == some "")
  let parent_soup :=
    match potential_parents with
    | [] => none
    | p :: _ => parse_html_ad parser p.body_html
  let child_soup := parse_html_ad parser company.body_html
  match child_soup with
  | some cs =>
    let afterFooters := (remove_common_footers_ad cs).1
    let afterParent :=
      match parent_soup with
      | some pp =>
        let afterSim := (remove_similar_elements_ad pp afterFooters).1
        (compare_endings_ad pp afterSim).1
      | none => afterFooters
    let final := remove_empty_elements_ad afterParent
    { company with
        body_html_new := some (serializeNode final),
        body_new := some (pyStrip (text_content final)),
        body_html_deleted := none,
        body_deleted := none }
  | none =>
    { company with body_html_new := some "", body_new := some "" }

/-- Python truthiness of an lxml element (`if soup:` in `clear_hp`):
`None` is falsy, and an element is truthy iff it has children
(`__len__`-based truthiness; a comment has length zero). -/
def truthyNode : Node → Bool
  | .element _ _ _ cs _ => cs.len != 0
  | .comment _ _ => false

/-- Python truthiness of an optional element. -/
def truthyOptNode : Option Node → Bool
  | none => false
  | some n => truthyNode n

/-- `clear_hp.find_body_html_by_url(data, url)`: the `body_html` of the
first record whose `url` equals the given value (`None` when `url` is
`None` or no record matches, or the matching record has no `body_html`). -/
def find_body_html_by_url (data : List Record) : Option String → Option String
  | none => none
  | some u =>
    match data.find? (fun c => c.url == u) with
    | some c => c.body_html
    | none => none

/-- `clear_hp.process_parent_page`: footers, then empty elements. -/
def process_parent_page (parent_soup : Node) : Node :=
  remove_empty_elements_hp (remove_common_footers_hp parent_soup)

/-- Dict assignment `d[k] = v` on an association list. -/
def upsertPD (pd : List (String × Node)) (k : String) (v : Node) : List (String × Node) :=
  match pd with
  | [] => [(k, v)]
  | (k', v') :: rest => if k' == k then (k, v) :: rest else (k', v') :: upsertPD rest k v

/-- Dict lookup `d.get(k)`. -/
def lookupPD (pd : List (String × Node)) (k : String) : Option Node :=
  match pd with
  | [] => none
  | (k', v') :: rest => if k' == k then some v' else lookupPD rest k

/-- One iteration of the first loop of `clear_hp.process_file`: for a record
whose `p_url` resolves (via `find_body_html_by_url` over the whole batch) to
a non-empty `body_html`, parse that html, prune it with
`process_parent_page` and store it in `parent_data` under the `p_url` key.
A parse failure (where lxml would raise out of the file) stores nothing;
the loop's writes to `body_html_new` are unconditionally overwritten by the
second loop and are omitted.  `parent_data` keys are the non-`None` `p_url`
values. -/
def pdStep (parser : String → Option Node) (data : List Record)
    (pd : List (String × Node)) (c : Record) : List (String × Node) :=
  match c.p_url with
  | some pu =>
    match find_body_html_by_url data (some pu) with
    | some h =>
      if h != "" then
        match parser h with
        | some t => upsertPD pd pu (process_parent_page t)
        | none => pd
      else pd
    | none => pd
  | none => pd

/-- See `pdStep`: the whole first loop. -/
def buildParentData (parser : String → Option Node) (data : List Record) :
    List (String × Node) :=
  data.foldl (pdStep parser data) []

/-- `clear_hp.process_company_data(company, parent_data)`.  Note that both
`if child_soup:` and `if parent_soup:` use lxml element truthiness (the
tree must have children), and that the reference tree handed to
`remove_similar_elements` and `compare_endings` is the *pruned* parent
stored in `parent_data`. -/
def process_company_data (parser : String → Option Node)
    (company : Record) (parent_data : List (String × Node)) : Record :=
  let parent_soup : Option Node :=
    match company.p_url with
    | some pu => lookupPD parent_data pu
    | none => none
  let child_soup : Option Node :=
    match company.body_html with
    | some s => if s == "" then none else parser s
    | none => none
  if truthyOptNode child_soup then
    match child_soup with
    | some cs =>
      let afterFooters := remove_common_footers_hp cs
      let afterParent :=
        if truthyOptNode parent_soup then
          match parent_soup with
          | some pp => compare_endings_hp pp (remove_similar_elements_hp pp afterFooters)
          | none => afterFooters
        else afterFooters
      let final := remove_empty_elements_hp afterParent
      { company with
          body_html_new := some (serializeNode final),
          body_new := some (pyStrip (text_content final)) }
    | none => { company with body_html_new := some "", body_new := some "" }
  else { company with body_html_new := some "", body_new := some "" }

/-- The child sequence of a node (empty for a comment). -/
def childrenOfN : Node → NodeList
  | .element _ _ _ cs _ => cs
  | .comment _ _ => .nil

mutual

/-- All nodes of the subtree rooted at a node, in document order. -/
def subtreesNode : Node → List Node
  | .element tg a tx cs tl => .element tg a tx cs tl :: subtreesList cs
  | .comment s tl => [.comment s tl]
termination_by structural t => t

/-- All nodes of the subtrees of a child sequence, in document order. -/
def subtreesList : NodeList → List Node
  | .nil => []
  | .cons c cs => subtreesNode c ++ subtreesList cs
termination_by structural l => l

end

mutual

/-- No comment node anywhere in this subtree. -/
def commentFreeNode : Node → Bool
  | .element _ _ _ cs _ => commentFreeList cs
  | .comment _ _ => false
termination_by structural t => t

/-- No comment node anywhere below this child sequence. -/
def commentFreeList : NodeList → Bool
  | .nil => true
  | .cons c cs => commentFreeNode c && commentFreeList cs
termination_by structural l => l

end

mutual

/-- `DropOneNode t t'`: `t'` is `t` with exactly one node (together with its
whole subtree and tail) deleted somewhere strictly inside it; everything
else — every remaining node's tag, attributes, own text and tail — is
untouched. -/
inductive DropOneNode : Node → Node → Prop where
  | elem (tg : String) (a : List (String × String)) (tx : String)
      (cs cs' : NodeList) (tl : String) :
      DropOneList cs cs' → DropOneNode (.element tg a tx cs tl) (.element tg a tx cs' tl)

/-- `DropOneList cs cs'`: `cs'` is `cs` with exactly one node deleted. -/
inductive DropOneList : NodeList → NodeList → Prop where
  | head (c : Node) (cs : NodeList) : DropOneList (.cons c cs) cs
  | here (c c' : Node) (cs : NodeList) :
      DropOneNode c c' → DropOneList (.cons c cs) (.cons c' cs)
  | there (c : Node) (cs cs' : NodeList) :
      DropOneList cs cs' → DropOneList (.cons c cs) (.cons c cs')

end

/-- Record of the parent page used in the counterexample families: a footer
and a main paragraph. -/
def cxParentTree : Node :=
  .element "div" [] ""
    (.cons (.element "footer" [] "Legal stuff" .nil "")
      (.cons (.element "p" [] "Parent main" .nil "") .nil)) ""

/-- Child page for the C1 family: one block repeating the parent's footer
text and one child-only block. -/
def cxChildTree : Node :=
  .element "div" [] ""
    (.cons (.element "p" [] "Legal stuff" .nil "")
      (.cons (.element "p" [] "Child only" .nil "") .nil)) ""

/-- Raw html of the parent record (what `body_html` holds). -/
def cxParentHtml : String := "<div><footer>Legal stuff</footer><p>Parent main</p></div>"

/-- Raw html of the child record. -/
def cxChildHtml : String := "<div><p>Legal stuff</p><p>Child only</p></div>"

/-- Table model of lxml's parser on the documents of the C1 family,
including the fragments re-parsed for `body_deleted`. -/
def cxParser : String → Option Node := fun s =>
  if s == cxParentHtml then some cxParentTree
  else if s == cxChildHtml then some cxChildTree
  else if s == "<footer>Legal stuff</footer>" then
    some (.element "footer" [] "Legal stuff" .nil "")
  else none

/-- The parent record of the C1 family. -/
def cxParentRec : Record := { url := "P", p_url := some "", body_html := some cxParentHtml }

/-- The child record of the C1 family. -/
def cxChildRec : Record := { url := "C", p_url := some "P", body_html := some cxChildHtml }

/-- Parent page of the C3 family: independent content followed by a tail. -/
def c3ParentTree : Node :=
  .element "div" [] ""
    (.cons (.element "p" [] "Hello world" .nil "")
      (.cons (.element "p" [] "Tail" .nil "") .nil)) ""

/-- Child page of the C3 family: its whole text is the parent's tail. -/
def c3ChildTree : Node :=
  .element "div" [] "" (.cons (.element "p" [] "Tail" .nil "") .nil) ""

/-- Raw html of the C3 parent record. -/
def c3ParentHtml : String := "<div><p>Hello world</p><p>Tail</p></div>"

/-- Raw html of the C3 child record. -/
def c3ChildHtml : String := "<div><p>Tail</p></div>"

/-- Table model of lxml's parser on the C3 family. -/
def c3Parser : String → Option Node := fun s =>
  if s == c3ParentHtml then some c3ParentTree
  else if s == c3ChildHtml then some c3ChildTree
  else if s == "<p>Tail</p>" then some (.element "p" [] "Tail" .nil "")
  else none

/-- The parent record of the C3 family. -/
def c3ParentRec : Record := { url := "P3", p_url := some "", body_html := some c3ParentHtml }

/-- The child record of the C3 family. -/
def c3ChildRec : Record := { url := "C3", p_url := some "P3", body_html := some c3ChildHtml }

mutual

theorem pruneNode_idem (vac : Node → Bool) (t : Node) :
    pruneNode vac (pruneNode vac t) = pruneNode vac t := by
  cases t with
  | element tg a tx cs tl => simp [pruneNode, pruneList_idem vac cs]
  | comment s tl => rfl

theorem pruneList_idem (vac : Node → Bool) (cs : NodeList) :
    pruneList vac (pruneList vac cs) = pruneList vac cs := by
  cases cs with
  | nil => rfl
  | cons c cs =>
    by_cases h : vac (pruneNode vac c)
    · simp [pruneList, h, pruneList_idem vac cs]
    · simp [pruneList, h, pruneNode_idem vac c, pruneList_idem vac cs]

end

/-- **C4** (confirmed).  Running the Emptiness Pruner twice in a row yields
the tree obtained by running it once — the second run performs no further
deletions — for both the `clear_add_deleted` and the `clear_hp` variant of
`remove_empty_elements`. -/
theorem c4_empty_pruner_idempotent (t : Node) :
    remove_empty_elements_ad (remove_empty_elements_ad t) = remove_empty_elements_ad t ∧
    remove_empty_elements_hp (remove_empty_elements_hp t) = remove_empty_elements_hp t :=
  ⟨pruneNode_idem is_empty_element_ad t, pruneNode_idem is_empty_element_hp t⟩

mutual

theorem commentFree_pruneNode_ad (c : Node) (h : c.isComment = false) :
    commentFreeNode (pruneNode is_empty_element_ad c) = true := by
  cases c with
  | element tg a tx cs tl =>
    simpa [pruneNode, commentFreeNode] using commentFree_pruneList_ad cs
  | comment s tl => simp [Node.isComment] at h

theorem commentFree_pruneList_ad (cs : NodeList) :
    commentFreeList (pruneList is_empty_element_ad cs) = true := by
  cases cs with
  | nil => rfl
  | cons c cs =>
    by_cases h : is_empty_element_ad (pruneNode is_empty_element_ad c)
    · simpa [pruneList, h] using commentFree_pruneList_ad cs
    · cases c with
      | element tg a tx ccs tl =>
        simp [pruneList, h, commentFreeList,
          commentFree_pruneNode_ad (.element tg a tx ccs tl) rfl,
          commentFree_pruneList_ad cs]
      | comment s tl => simp [pruneNode, is_empty_element_ad] at h

end

/-- **C6** (confirmed).  Under the `clear_add_deleted` (comment-is-vacuous)
policy a single Emptiness Pruner pass removes every comment node from an
element-rooted tree (first conjunct: the result is comment-free); and a
wrapper element whose sole child is a comment, with no text and no
attributes, becomes vacuous by that removal and is dropped from its own
parent's child sequence in that same pass (second conjunct, stated for an
arbitrary position of the wrapper in a pruned child sequence; comment and
wrapper tails `ct`, `wtl` are arbitrary). -/
theorem c6_comment_vacuous_pass (tg : String) (a : List (String × String))
    (tx : String) (cs : NodeList) (tl : String)
    (wtg s ct wtl : String) (rest : NodeList) :
    commentFreeNode (remove_empty_elements_ad (.element tg a tx cs tl)) = true ∧
    pruneList is_empty_element_ad
        (.cons (.element wtg [] "" (.cons (.comment s ct) .nil) wtl) rest)
      = pruneList is_empty_element_ad rest := by
  constructor
  · exact commentFree_pruneNode_ad (.element tg a tx cs tl) rfl
  · simp [pruneList, pruneNode, is_empty_element_ad, text_content, textList, pyStrip,
      NodeList.len]

theorem applyFooterRules_root (rules : List FooterRule) (tg : String)
    (a : List (String × String)) (tx : String) (cs : NodeList) (tl : String) :
    ∃ cs', (applyFooterRules rules (.element tg a tx cs tl)).1 = .element tg a tx cs' tl := by
  induction rules generalizing cs with
  | nil => exact ⟨cs, rfl⟩
  | cons r rs ih =>
    obtain ⟨cs', h⟩ := ih (removeMatchingList r cs)
    exact ⟨cs', by simpa [applyFooterRules, removeMatchingNode] using h⟩

theorem compare_endings_ad_root (p : Node) (tg : String)
    (a : List (String × String)) (tx : String) (cs : NodeList) (tl : String) :
    ∃ cs', (compare_endings_ad p (.element tg a tx cs tl)).1 = .element tg a tx cs' tl := by
  unfold compare_endings_ad
  by_cases hc :
      strEndsWith (pyStrip (text_content p))
        (pyStrip (text_content (.element tg a tx cs tl))) = true
  · rcases h : tailRemoveList (pyStrip (text_content (.element tg a tx cs tl))) cs with
      _ | ⟨cs', f⟩
    · exact ⟨cs, by simp [hc, h]⟩
    · exact ⟨cs', by simp [hc, h]⟩
  · exact ⟨cs, by simp [hc]⟩

/-- **C10** (confirmed).  None of the four pruning operations of
`clear_add_deleted` ever removes the root of the document it works on (its
`getparent()` is `None`): for an arbitrary element root — including one
that itself satisfies the removal criteria, e.g. whose whole text content
is a key of the reference map — the Emptiness Pruner, the Boilerplate
Matcher, the Duplicate Text Remover (any reference `r`) and the Tail
Overlap Resolver (any other document `p`) all return a root with the same
tag, attributes, own text and tail, only its child sequence possibly
shrunk. -/
theorem c10_root_never_removed (tg : String) (a : List (String × String))
    (tx : String) (cs : NodeList) (tl : String) (r p : Node) :
    (∃ cs₁, remove_empty_elements_ad (.element tg a tx cs tl) = .element tg a tx cs₁ tl) ∧
    (∃ cs₂, (remove_common_footers_ad (.element tg a tx cs tl)).1 = .element tg a tx cs₂ tl) ∧
    (∃ cs₃, (remove_similar_elements_ad r (.element tg a tx cs tl)).1 = .element tg a tx cs₃ tl) ∧
    (∃ cs₄, (compare_endings_ad p (.element tg a tx cs tl)).1 = .element tg a tx cs₄ tl) := by
  refine ⟨⟨pruneList is_empty_element_ad cs, rfl⟩, ?_, ?_, ?_⟩
  · exact applyFooterRules_root COMMON_FOOTERS_XPATH_ad tg a tx cs tl
  · exact ⟨pruneList is_empty_element_ad
      (similarWalkList (nonEmptyTextsList (.cons r .nil)) cs), rfl⟩
  · exact compare_endings_ad_root p tg a tx cs tl

/-- **C2** (counterexample).  The Tail Overlap Resolver of the sources does
not truncate text within an element: on a parent whose text `hello world`
ends with the child's whole text `world`, `compare_endings` removes the
last element whose direct text contains `world` — the `span` — **whole**,
together with its entire subtree (the nested `em`) and its own text,
contradicting "never removes a whole element or subtree" and "strictly a
truncation of text within one element". -/
theorem c2_counterexample :
    compare_endings_ad (.element "div" [] "hello world" .nil "")
        (.element "div" [] ""
          (.cons (.element "span" [] "world"
            (.cons (.element "em" [] "" .nil "") .nil) "") .nil) "")
      = (.element "div" [] "" .nil "", ["<span>world<em></em></span>"]) := rfl

mutual

theorem tailRemoveNode_drop (needle : String) (c c' : Node) (f : String)
    (h : tailRemoveNode needle c = some (some c', f)) : DropOneNode c c' := by
  cases c with
  | element tg a tx cs tl =>
    rcases h1 : tailRemoveList needle cs with _ | ⟨cs0, f0⟩
    · rw [tailRemoveNode, h1] at h
      by_cases hm : tailMatches needle (.element tg a tx cs tl) = true
      · simp [hm] at h
      · simp [hm] at h
    · rw [tailRemoveNode, h1] at h
      simp only [Option.some.injEq, Prod.mk.injEq] at h
      obtain ⟨h2, _⟩ := h
      rw [← h2]
      exact DropOneNode.elem tg a tx cs cs0 tl (tailRemoveList_drop needle cs cs0 f0 h1)
  | comment s tl => simp [tailRemoveNode] at h

theorem tailRemoveList_drop (needle : String) (cs cs' : NodeList) (f : String)
    (h : tailRemoveList needle cs = some (cs', f)) : DropOneList cs cs' := by
  cases cs with
  | nil => simp [tailRemoveList] at h
  | cons c cs =>
    rcases h1 : tailRemoveList needle cs with _ | ⟨cs0, f0⟩
    · rcases h2 : tailRemoveNode needle c with _ | ⟨oc, f1⟩
      · rw [tailRemoveList, h1, h2] at h
        simp at h
      · cases oc with
        | none =>
          rw [tailRemoveList, h1, h2] at h
          simp only [Option.some.injEq, Prod.mk.injEq] at h
          obtain ⟨h3, _⟩ := h
          rw [← h3]
          exact DropOneList.head c cs
        | some c0 =>
          rw [tailRemoveList, h1, h2] at h
          simp only [Option.some.injEq, Prod.mk.injEq] at h
          obtain ⟨h3, _⟩ := h
          rw [← h3]
          exact DropOneList.here c c0 cs (tailRemoveNode_drop needle c c0 f1 h2)
    · rw [tailRemoveList, h1] at h
      simp only [Option.some.injEq, Prod.mk.injEq] at h
      obtain ⟨h3, _⟩ := h
      rw [← h3]
      exact DropOneList.there c cs cs0 (tailRemoveList_drop needle cs cs0 f0 h1)

end

/-- **C2** (amended).  What `compare_endings` actually guarantees: each call
either leaves the target document unchanged or deletes exactly one node
together with its whole subtree and tail, every remaining node keeping its
tag, attributes, own text and tail (`DropOneNode`); and it makes no change
at all when its full-text test fails — suffix containment of the stripped
texts in `clear_add_deleted`, exact equality in `clear_hp` (there is no
suffix-window scan and no text truncation in either source). -/
theorem c2_amended_one_whole_deletion (p c : Node) :
    (strEndsWith (pyStrip (text_content p)) (pyStrip (text_content c)) = false →
        compare_endings_ad p c = (c, [])) ∧
    ((compare_endings_ad p c).1 = c ∨ DropOneNode c (compare_endings_ad p c).1) ∧
    ((pyStrip (text_content p) == pyStrip (text_content c)) = false →
        compare_endings_hp p c = c) ∧
    (compare_endings_hp p c = c ∨ DropOneNode c (compare_endings_hp p c)) := by
  refine ⟨fun h => by simp [compare_endings_ad, h], ?_, fun h => by simp [compare_endings_hp, h], ?_⟩
  · by_cases hc :
        strEndsWith (pyStrip (text_content p)) (pyStrip (text_content c)) = true
    · cases c with
      | element tg a tx cs tl =>
        rcases h1 : tailRemoveList (pyStrip (text_content (.element tg a tx cs tl))) cs with
          _ | ⟨cs0, f0⟩
        · exact Or.inl (by simp [compare_endings_ad, hc, h1])
        · refine Or.inr ?_
          have hres : (compare_endings_ad p (.element tg a tx cs tl)).1
              = .element tg a tx cs0 tl := by simp [compare_endings_ad, hc, h1]
          rw [hres]
          exact DropOneNode.elem tg a tx cs cs0 tl
            (tailRemoveList_drop _ cs cs0 f0 h1)
      | comment s tl => exact Or.inl (by simp [compare_endings_ad, hc])
    · exact Or.inl (by simp [compare_endings_ad, hc])
  · by_cases hc : (pyStrip (text_content p) == pyStrip (text_content c)) = true
    · cases c with
      | element tg a tx cs tl =>
        rcases h1 : tailRemoveList (pyStrip (text_content p)) cs with _ | ⟨cs0, f0⟩
        · exact Or.inl (by simp [compare_endings_hp, hc, h1])
        · refine Or.inr ?_
          have hres : compare_endings_hp p (.element tg a tx cs tl)
              = .element tg a tx cs0 tl := by simp [compare_endings_hp, hc, h1]
          rw [hres]
          exact DropOneNode.elem tg a tx cs cs0 tl
            (tailRemoveList_drop _ cs cs0 f0 h1)
      | comment s tl => exact Or.inl (by simp [compare_endings_hp, hc])
    · exact Or.inl (by simp [compare_endings_hp, hc])

/-- Witness for `c2_amended_one_whole_deletion` at a concrete pair of
documents whose texts do not match: both resolvers leave the target
untouched. -/
theorem c2_amended_witness :
    (strEndsWith (pyStrip (text_content (Node.element "div" [] "alpha" .nil "")))
        (pyStrip (text_content (Node.element "div" [] "beta" .nil ""))) = false) ∧
    compare_endings_ad (Node.element "div" [] "alpha" .nil "")
        (Node.element "div" [] "beta" .nil "") = (Node.element "div" [] "beta" .nil "", []) ∧
    compare_endings_hp (Node.element "div" [] "alpha" .nil "")
        (Node.element "div" [] "beta" .nil "") = Node.element "div" [] "beta" .nil "" :=
  ⟨by decide,
   (c2_amended_one_whole_deletion (Node.element "div" [] "alpha" .nil "")
      (Node.element "div" [] "beta" .nil "")).1 (by decide),
   (c2_amended_one_whole_deletion (Node.element "div" [] "alpha" .nil "")
      (Node.element "div" [] "beta" .nil "")).2.2.1 (by decide)⟩

/-- **C3** (counterexample).  In `process_parent_company`, with a parent
whose text `Hello worldTail` ends with the representative child's text
`Tail`, the tail check fires — but the matched tail element is removed from
the **child's freshly parsed document**, not from the parent: the parent's
pruned output still contains `<p>Tail</p>` verbatim (first conjunct), while
the parent's audit field records that child element as deleted (second
conjunct); the third conjunct shows the child document coming out of
`compare_endings` with its `<p>Tail</p>` child gone. -/
theorem c3_counterexample :
    (process_parent_company c3Parser c3ParentRec [c3ChildRec]).body_html_new
        = some "<div><p>Hello world</p><p>Tail</p></div>" ∧
    (process_parent_company c3Parser c3ParentRec [c3ChildRec]).body_html_deleted
        = some "<p>Tail</p>" ∧
    compare_endings_ad c3ParentTree c3ChildTree
        = (.element "div" [] "" .nil "", ["<p>Tail</p>"]) :=
  ⟨by decide, by decide, rfl⟩

/-- **C3** (amended).  The actual dataflow of parent processing when a
representative child is available: the Duplicate Text Remover is indeed
applied with the parent as target (the parent tree, already footer-pruned,
is what `remove_similar_elements` trims), but the reference it uses is the
child document *as mutated by the tail step*, and the tail step
(`compare_endings`) removes its matched element from the child's freshly
parsed document `cs0`, recording that child fragment in the parent's
deleted-content audit; the parent tree itself is not modified by the tail
step. -/
theorem c3_amended_dataflow (parser : String → Option Node) (company : Record)
    (child_data : List Record) (ch : Record) (rest : List Record)
    (ps cs0 : Node)
    (h1 : parse_html_ad parser company.body_html = some ps)
    (h2 : child_data.filter (fun c => truthyOptStr c.p_url) = ch :: rest)
    (h3 : parse_html_ad parser ch.body_html = some cs0) :
    (process_parent_company parser company child_data).body_html_new
      = some (serializeNode (remove_empty_elements_ad
          (remove_similar_elements_ad
            (compare_endings_ad (remove_common_footers_ad ps).1 cs0).1
            (remove_common_footers_ad ps).1).1)) ∧
    (process_parent_company parser company child_data).body_html_deleted
      = some (joinStrings ((remove_common_footers_ad ps).2 ++
          ((compare_endings_ad (remove_common_footers_ad ps).1 cs0).2 ++
           (remove_similar_elements_ad
             (compare_endings_ad (remove_common_footers_ad ps).1 cs0).1
             (remove_common_footers_ad ps).1).2))) := by
  constructor <;> simp [process_parent_company, h1, h2, h3]

/-- Witness for `c3_amended_dataflow` at the concrete C3 family. -/
theorem c3_amended_witness :
    (parse_html_ad c3Parser c3ParentRec.body_html = some c3ParentTree) ∧
    (List.filter (fun c => truthyOptStr c.p_url) [c3ChildRec] = [c3ChildRec]) ∧
    (parse_html_ad c3Parser c3ChildRec.body_html = some c3ChildTree) ∧
    (process_parent_company c3Parser c3ParentRec [c3ChildRec]).body_html_new
      = some (serializeNode (remove_empty_elements_ad
          (remove_similar_elements_ad
            (compare_endings_ad (remove_common_footers_ad c3ParentTree).1 c3ChildTree).1
            (remove_common_footers_ad c3ParentTree).1).1)) :=
  ⟨rfl, rfl, rfl,
   (c3_amended_dataflow c3Parser c3ParentRec [c3ChildRec] c3ChildRec []
      c3ParentTree c3ChildTree rfl rfl rfl).1⟩

/-- A page whose only content is a `div` with `class="legal"`: the claim
says the default rule set removes it. -/
def c8Tree : Node :=
  .element "div" [] ""
    (.cons (.element "div" [("class", "legal")] "Old legal" .nil "") .nil) ""

/-- **C8** (counterexample).  `clear_add_deleted`'s rule list has no
class-attribute rule for `legal` (nor for `bottom`; the id-`legal` entry is
duplicated instead), so its Boilerplate Matcher leaves a
`<div class="legal">` completely untouched, contradicting "for each of the
four substrings, both the class-attribute form and the id-attribute form
are recognized". -/
theorem c8_counterexample :
    (remove_common_footers_ad c8Tree).1 = c8Tree ∧
    FooterRule.divAttrRule "class" "legal" ∉ COMMON_FOOTERS_XPATH_ad ∧
    FooterRule.divAttrRule "class" "bottom" ∉ COMMON_FOOTERS_XPATH_ad :=
  ⟨rfl, by decide, by decide⟩

/-- **C8** (amended).  `clear_hp`'s default rule set recognizes the footer
tag and both the class and the id form for all four substrings (and its
matcher does remove a `<div class="legal">`, last conjunct); but
`clear_add_deleted`'s rule set recognizes both forms only for `footer` and
`copyright`, and only the id form for `bottom` and `legal` — the class
forms of `bottom` and `legal` are absent, the id-`legal` rule appearing
twice instead. -/
theorem c8_amended_rule_sets :
    FooterRule.tagRule "footer" ∈ COMMON_FOOTERS_XPATH_hp ∧
    FooterRule.divAttrRule "class" "footer" ∈ COMMON_FOOTERS_XPATH_hp ∧
    FooterRule.divAttrRule "id" "footer" ∈ COMMON_FOOTERS_XPATH_hp ∧
    FooterRule.divAttrRule "class" "bottom" ∈ COMMON_FOOTERS_XPATH_hp ∧
    FooterRule.divAttrRule "id" "bottom" ∈ COMMON_FOOTERS_XPATH_hp ∧
    FooterRule.divAttrRule "class" "copyright" ∈ COMMON_FOOTERS_XPATH_hp ∧
    FooterRule.divAttrRule "id" "copyright" ∈ COMMON_FOOTERS_XPATH_hp ∧
    FooterRule.divAttrRule "class" "legal" ∈ COMMON_FOOTERS_XPATH_hp ∧
    FooterRule.divAttrRule "id" "legal" ∈ COMMON_FOOTERS_XPATH_hp ∧
    FooterRule.tagRule "footer" ∈ COMMON_FOOTERS_XPATH_ad ∧
    FooterRule.divAttrRule "class" "footer" ∈ COMMON_FOOTERS_XPATH_ad ∧
    FooterRule.divAttrRule "id" "footer" ∈ COMMON_FOOTERS_XPATH_ad ∧
    FooterRule.divAttrRule "id" "bottom" ∈ COMMON_FOOTERS_XPATH_ad ∧
    FooterRule.divAttrRule "class" "copyright" ∈ COMMON_FOOTERS_XPATH_ad ∧
    FooterRule.divAttrRule "id" "copyright" ∈ COMMON_FOOTERS_XPATH_ad ∧
    FooterRule.divAttrRule "id" "legal" ∈ COMMON_FOOTERS_XPATH_ad ∧
    FooterRule.divAttrRule "class" "bottom" ∉ COMMON_FOOTERS_XPATH_ad ∧
    FooterRule.divAttrRule "class" "legal" ∉ COMMON_FOOTERS_XPATH_ad ∧
    remove_common_footers_hp c8Tree = .element "div" [] "" .nil "" := by
  refine ⟨?_, ?_, ?_, ?_, ?_, ?_, ?_, ?_, ?_, ?_, ?_, ?_, ?_, ?_, ?_, ?_, ?_, ?_, rfl⟩
      <;> decide

/-- A child record that reaches `process_child_company` already carrying
audit fields, with an unparseable body. -/
def c9Rec : Record :=
  { url := "c", p_url := some "P", body_html := none,
    body_html_deleted := some "stale-html", body_deleted := some "stale-text" }

/-- **C9** (counterexample).  `process_child_company` pops the two audit
fields only in its successful-parse branch; when the child's `body_html`
does not parse (here: absent), the record is returned with any pre-existing
`body_html_deleted` / `body_deleted` values intact — they are not
"explicitly absent from the record after processing, regardless of whether
the child's body_html parsed successfully". -/
theorem c9_counterexample :
    (process_child_company (fun _ => none) c9Rec []).body_html_deleted = some "stale-html" ∧
    (process_child_company (fun _ => none) c9Rec []).body_deleted = some "stale-text" :=
  ⟨rfl, rfl⟩

/-- **C9** (amended).  For every child record: when its `body_html` parses,
the two deleted-content fields are explicitly absent (`pop`ped) from the
output record; when the parse fails, the fields are passed through
unchanged from the input record — so they are absent whenever the input
record did not carry them, but only then. -/
theorem c9_amended_deleted_fields (parser : String → Option Node)
    (company : Record) (parent_data : List Record) :
    ((process_child_company parser company parent_data).body_html_deleted = none ∧
     (process_child_company parser company parent_data).body_deleted = none) ∨
    (parse_html_ad parser company.body_html = none ∧
     (process_child_company parser company parent_data).body_html_deleted
        = company.body_html_deleted ∧
     (process_child_company parser company parent_data).body_deleted
        = company.body_deleted) := by
  rcases h : parse_html_ad parser company.body_html with _ | cs
  · exact Or.inr ⟨rfl, by simp [process_child_company, h], by simp [process_child_company, h]⟩
  · exact Or.inl ⟨by simp [process_child_company, h], by simp [process_child_company, h]⟩

/-- A record whose `body_html` is present but unparseable. -/
def c7Rec : Record := { url := "u", p_url := some "p", body_html := some "<broken" }

/-- A record whose `body_html` key is absent. -/
def c7RecNone : Record := { url := "u2", p_url := some "p", body_html := none }

/-- A record whose `body_html` is the empty string. -/
def c7RecEmpty : Record := { url := "u3", p_url := some "p", body_html := some "" }

/-- `clear_hp.parse_html`: a bare call into the external parser, with no
empty-input guard of its own — every call site in `clear_hp` guards empty
input first (`... if url_html_content else None`), and per the §4.1 adapter
contract the external parser reports failure as `none` rather than
raising. -/
def parse_html_hp (parser : String → Option Node) (content : String) : Option Node :=
  parser content

/-- **C7** (confirmed).  Records with absent, empty or unparseable
`body_html` degrade to empty outputs with no fault, in both files.
Conjuncts 1–2: `clear_add_deleted.parse_html` returns `None` without
invoking the parser when the content is absent or the empty string.
Conjunct 3: whenever parsing yields nothing, `process_child_company` emits
`body_html_new = ""` and `body_new = ""`.  Conjunct 4: in the same case
`process_parent_company` emits empty strings for all four output fields.
Conjuncts 5–7: `clear_hp.process_company_data` emits
`body_html_new = ""` and `body_new = ""` when the record's `body_html` is
absent, is the empty string, or is rejected by the external parser
(`parse_html_hp` returning `none` — the adapter reporting failure rather
than raising, per the §4.1 contract).  All embedded functions are total, so
no fault is raised on any of these paths. -/
theorem c7_empty_input_degrades (parser : String → Option Node)
    (company : Record) (parent_data child_data : List Record)
    (pd : List (String × Node)) :
    parse_html_ad parser none = none ∧
    parse_html_ad parser (some "") = none ∧
    (parse_html_ad parser company.body_html = none →
      (process_child_company parser company parent_data).body_html_new = some "" ∧
      (process_child_company parser company parent_data).body_new = some "") ∧
    (parse_html_ad parser company.body_html = none →
      (process_parent_company parser company child_data).body_html_new = some "" ∧
      (process_parent_company parser company child_data).body_new = some "" ∧
      (process_parent_company parser company child_data).body_html_deleted = some "" ∧
      (process_parent_company parser company child_data).body_deleted = some "") ∧
    (company.body_html = none →
      (process_company_data parser company pd).body_html_new = some "" ∧
      (process_company_data parser company pd).body_new = some "") ∧
    (company.body_html = some "" →
      (process_company_data parser company pd).body_html_new = some "" ∧
      (process_company_data parser company pd).body_new = some "") ∧
    ((∀ s, company.body_html = some s → parse_html_hp parser s = none) →
      (process_company_data parser company pd).body_html_new = some "" ∧
      (process_company_data parser company pd).body_new = some "") := by
  refine ⟨rfl, rfl, ?_, ?_, ?_, ?_, ?_⟩
  · intro h
    exact ⟨by simp [process_child_company, h], by simp [process_child_company, h]⟩
  · intro h
    refine ⟨?_, ?_, ?_, ?_⟩ <;> simp [process_parent_company, h]
  · intro h
    exact ⟨by simp [process_company_data, h, truthyOptNode],
           by simp [process_company_data, h, truthyOptNode]⟩
  · intro h
    exact ⟨by simp [process_company_data, h, truthyOptNode],
           by simp [process_company_data, h, truthyOptNode]⟩
  · intro h
    rcases hb : company.body_html with _ | s
    · exact ⟨by simp [process_company_data, hb, truthyOptNode],
             by simp [process_company_data, hb, truthyOptNode]⟩
    · have hs : parse_html_hp parser s = none := h s hb
      by_cases he : (s == "") = true
      · exact ⟨by simp [process_company_data, hb, he, truthyOptNode],
               by simp [process_company_data, hb, he, truthyOptNode]⟩
      · have he' : (s == "") = false := by simpa using he
        have hs' : parser s = none := hs
        exact ⟨by simp [process_company_data, hb, he', hs', truthyOptNode],
               by simp [process_company_data, hb, he', hs', truthyOptNode]⟩

/-- Witness for `c7_empty_input_degrades`: an unparseable record through
child and parent processing of `clear_add_deleted`, and absent / empty /
unparseable records through `clear_hp`'s `process_company_data` — all come
out with empty output fields. -/
theorem c7_witness :
    (parse_html_ad (fun _ => none) c7Rec.body_html = none) ∧
    (process_child_company (fun _ => none) c7Rec []).body_html_new = some "" ∧
    (process_child_company (fun _ => none) c7Rec []).body_new = some "" ∧
    (process_parent_company (fun _ => none) c7Rec []).body_html_new = some "" ∧
    (process_parent_company (fun _ => none) c7Rec []).body_deleted = some "" ∧
    (process_company_data (fun _ => none) c7RecNone []).body_html_new = some "" ∧
    (process_company_data (fun _ => none) c7RecEmpty []).body_new = some "" ∧
    (process_company_data (fun _ => none) c7Rec []).body_new = some "" :=
  ⟨rfl,
   ((c7_empty_input_degrades (fun _ => none) c7Rec [] [] []).2.2.1 rfl).1,
   ((c7_empty_input_degrades (fun _ => none) c7Rec [] [] []).2.2.1 rfl).2,
   ((c7_empty_input_degrades (fun _ => none) c7Rec [] [] []).2.2.2.1 rfl).1,
   ((c7_empty_input_degrades (fun _ => none) c7Rec [] [] []).2.2.2.1 rfl).2.2.2,
   ((c7_empty_input_degrades (fun _ => none) c7RecNone [] [] []).2.2.2.2.1 rfl).1,
   ((c7_empty_input_degrades (fun _ => none) c7RecEmpty [] [] []).2.2.2.2.2.1 rfl).2,
   ((c7_empty_input_degrades (fun _ => none) c7Rec [] [] []).2.2.2.2.2.2
      (fun _ _ => rfl)).2⟩

/-- **C1** (counterexample).  In `clear_add_deleted`, `process_child_company`
re-parses the parent's **raw** `body_html` as the reference document.  In
the concrete family: the parent's raw body contains element text
`Legal stuff` (first conjunct, as a key of the raw tree's text map); the
parent's own pruning removes it, so its pruned output is
`<div><p>Parent main</p></div>` with no trace of it (second conjunct); yet
when the child is pruned afterwards, its element `<p>Legal stuff</p>` is
deleted — the text was still treated as known reference text (third and
fourth conjuncts), contradicting the claim. -/
theorem c1_counterexample :
    memStr "Legal stuff" (nonEmptyTextsList (.cons cxParentTree .nil)) = true ∧
    (process_parent_company cxParser cxParentRec [cxChildRec]).body_html_new
        = some "<div><p>Parent main</p></div>" ∧
    (process_child_company cxParser cxChildRec
        [process_parent_company cxParser cxParentRec [cxChildRec]]).body_html_new
        = some "<div><p>Child only</p></div>" ∧
    (process_child_company cxParser cxChildRec
        [process_parent_company cxParser cxParentRec [cxChildRec]]).body_new
        = some "Child only" :=
  ⟨by decide, by decide, by decide, by decide⟩

theorem lookupPD_upsertPD_self (pd : List (String × Node)) (k : String) (v : Node) :
    lookupPD (upsertPD pd k v) k = some v := by
  induction pd with
  | nil => simp [upsertPD, lookupPD]
  | cons kv rest ih =>
    by_cases h : kv.1 == k
    · simp [upsertPD, lookupPD, h]
    · simp [upsertPD, lookupPD, h, ih]

theorem lookupPD_upsertPD_ne (pd : List (String × Node)) (k k' : String) (v : Node)
    (h : (k' == k) = false) : lookupPD (upsertPD pd k' v) k = lookupPD pd k := by
  induction pd with
  | nil => simp [upsertPD, lookupPD, h]
  | cons kv rest ih =>
    by_cases h1 : kv.1 == k'
    · have h2 : (kv.1 == k) = false := by
        have e1 : kv.1 = k' := by simpa using h1
        simpa [e1] using h
      simp [upsertPD, lookupPD, h1, h2, h]
    · simp [upsertPD, lookupPD, h1, ih]

theorem pdStep_preserves (parser : String → Option Node) (data : List Record)
    (u : String) (v : Node) (pd : List (String × Node)) (c : Record)
    (hl : lookupPD pd u = some v)
    (hval : ∀ h t, find_body_html_by_url data (some u) = some h → parser h = some t →
      process_parent_page t = v) :
    lookupPD (pdStep parser data pd c) u = some v := by
  rcases hp : c.p_url with _ | pu
  · simpa [pdStep, hp] using hl
  · rcases hf : find_body_html_by_url data (some pu) with _ | h
    · simpa [pdStep, hp, hf] using hl
    · by_cases hne : (h == "") = true
      · have : (h != "") = false := by simpa [bne] using hne
        simpa [pdStep, hp, hf, this] using hl
      · have hnz : (h != "") = true := by simpa [bne] using hne
        rcases hpar : parser h with _ | t
        · simpa [pdStep, hp, hf, hnz, hpar] using hl
        · by_cases hu : (pu == u) = true
          · have e : pu = u := by simpa using hu
            subst e
            have := hval h t hf hpar
            simp [pdStep, hp, hf, hnz, hpar, this, lookupPD_upsertPD_self]
          · have hu' : (pu == u) = false := by simpa using hu
            simp [pdStep, hp, hf, hnz, hpar, lookupPD_upsertPD_ne pd u pu _ hu', hl]

theorem pdStep_sets (parser : String → Option Node) (data : List Record)
    (u : String) (hh : String) (t : Node) (pd : List (String × Node)) (c : Record)
    (hp : c.p_url = some u)
    (hf : find_body_html_by_url data (some u) = some hh)
    (hnz : hh ≠ "") (hpar : parser hh = some t) :
    lookupPD (pdStep parser data pd c) u = some (process_parent_page t) := by
  have hnz' : (hh != "") = true := by simpa [bne] using hnz
  simp [pdStep, hp, hf, hnz', hpar, lookupPD_upsertPD_self]

theorem buildParentData_fold (parser : String → Option Node) (data : List Record)
    (u : String) (hh : String) (t : Node)
    (hf : find_body_html_by_url data (some u) = some hh)
    (hnz : hh ≠ "") (hpar : parser hh = some t) :
    ∀ (l : List Record) (pd : List (String × Node)),
      ((∃ c ∈ l, c.p_url = some u) ∨ lookupPD pd u = some (process_parent_page t)) →
      lookupPD (l.foldl (pdStep parser data) pd) u = some (process_parent_page t) := by
  intro l
  induction l with
  | nil =>
    intro pd hyp
    rcases hyp with ⟨c, hc, _⟩ | hl
    · simp at hc
    · simpa using hl
  | cons x xs ih =>
    intro pd hyp
    have hval : ∀ h' t', find_body_html_by_url data (some u) = some h' →
        parser h' = some t' → process_parent_page t' = process_parent_page t := by
      intro h' t' hf' hpar'
      rw [hf] at hf'
      obtain rfl : hh = h' := by simpa using hf'
      rw [hpar] at hpar'
      obtain rfl : t = t' := by simpa using hpar'
      rfl
    rcases hyp with ⟨c, hc, hcu⟩ | hl
    · rcases List.mem_cons.mp hc with rfl | hxs
      · exact ih _ (Or.inr (pdStep_sets parser data u hh t pd c hcu hf hnz hpar))
      · by_cases hx : lookupPD (pdStep parser data pd x) u = some (process_parent_page t)
        · exact ih _ (Or.inr hx)
        · exact ih _ (Or.inl ⟨c, hxs, hcu⟩)
    · exact ih _ (Or.inr (pdStep_preserves parser data u _ pd x hl hval))

/-- **C1** (amended).  The parent-before-child property holds in the
`clear_hp` pipeline but not in `clear_add_deleted`.  For `clear_hp`: for any
batch and any record `c` whose `p_url` resolves to a parent body that
parses, the reference tree stored in `parent_data` — the tree
`process_company_data` will look up when pruning `c` — is exactly the
parent's **pruned** tree `process_parent_page t` (footers and empty
elements removed from the fresh parse `t`), so text absent from the pruned
tree's text map is never treated as known reference text.  The last
conjunct shows this concretely on the counterexample family: under
`clear_hp` the child's `Legal stuff` block (present in the parent's raw
body only inside the footer that parent pruning removes) survives child
processing.  In `clear_add_deleted` the child instead re-parses the raw
parent body (see the counterexample). -/
theorem c1_amended_pruned_reference (parser : String → Option Node)
    (data : List Record) (c : Record) (u hh : String) (t : Node)
    (hmem : c ∈ data) (hp : c.p_url = some u)
    (hf : find_body_html_by_url data (some u) = some hh)
    (hnz : hh ≠ "") (hpar : parser hh = some t) :
    lookupPD (buildParentData parser data) u = some (process_parent_page t) ∧
    (process_company_data cxParser cxChildRec
        (buildParentData cxParser [cxParentRec, cxChildRec])).body_new
      = some "Legal stuffChild only" := by
  constructor
  · exact buildParentData_fold parser data u hh t hf hnz hpar data []
      (Or.inl ⟨c, hmem, hp⟩)
  · decide

/-- Witness for `c1_amended_pruned_reference` at the concrete family. -/
theorem c1_amended_witness :
    cxChildRec ∈ [cxParentRec, cxChildRec] ∧
    lookupPD (buildParentData cxParser [cxParentRec, cxChildRec]) "P"
      = some (process_parent_page cxParentTree) :=
  ⟨by simp,
   (c1_amended_pruned_reference cxParser [cxParentRec, cxChildRec] cxChildRec
      "P" cxParentHtml cxParentTree (by simp) rfl rfl (by decide) rfl).1⟩

/-- **C5** (counterexample).  The target's root is in the `//*` snapshot but
is never removed (`getparent()` is `None`), in both variants: with
reference and target both `<div>hello</div>`, the root survives
`remove_similar_elements` unchanged — in `clear_add_deleted` (first
conjunct) and in `clear_hp` (second conjunct) — even though its stripped
text content `hello` is a key of the reference document's non-empty-text
map, both at call time and after the call (third conjunct) — so "every
element still present ... was not a key" fails at the root. -/
theorem c5_counterexample :
    (remove_similar_elements_ad (.element "div" [] "hello" .nil "")
        (.element "div" [] "hello" .nil "")).1 = .element "div" [] "hello" .nil "" ∧
    remove_similar_elements_hp (.element "div" [] "hello" .nil "")
        (.element "div" [] "hello" .nil "") = .element "div" [] "hello" .nil "" ∧
    memStr (pyStrip (text_content (.element "div" [] "hello" .nil "" : Node)))
      (nonEmptyTextsList (.cons (.element "div" [] "hello" .nil "") .nil)) = true :=
  ⟨rfl, rfl, by decide⟩

theorem mem_subtrees_of_mem_children (c d : Node)
    (h : d ∈ subtreesList (childrenOfN c)) : d ∈ subtreesNode c := by
  cases c with
  | element tg a tx cs tl =>
    simpa [subtreesNode, childrenOfN] using Or.inr h
  | comment s tl => simp [childrenOfN, subtreesList] at h

theorem self_mem_subtreesNode (c : Node) : c ∈ subtreesNode c := by
  cases c <;> simp [subtreesNode]

theorem mem_subtreesList_cons_left (c d : Node) (cs : NodeList)
    (h : d ∈ subtreesNode c) : d ∈ subtreesList (.cons c cs) := by
  simpa [subtreesList] using Or.inl h

theorem mem_subtreesList_cons_right (c d : Node) (cs : NodeList)
    (h : d ∈ subtreesList cs) : d ∈ subtreesList (.cons c cs) := by
  simpa [subtreesList] using Or.inr h

mutual

theorem walkPreNode (keys : List String) (c d : Node)
    (h : d ∈ subtreesNode (similarWalkNode keys c)) :
    d = similarWalkNode keys c ∨
    ∃ d0, d0 ∈ subtreesList (childrenOfN c) ∧ d = similarWalkNode keys d0 ∧
      (d0.isComment = false → memStr (pyStrip (text_content d0)) keys = false) := by
  cases c with
  | element tg a tx cs tl =>
    rw [similarWalkNode, subtreesNode, List.mem_cons] at h
    rcases h with h | h
    · exact Or.inl (by simpa [similarWalkNode] using h)
    · rcases walkPreList keys cs d h with ⟨d0, hmem, heq, hcond⟩
      exact Or.inr ⟨d0, by simpa [childrenOfN] using hmem, heq, hcond⟩
  | comment s tl =>
    rw [similarWalkNode, subtreesNode, List.mem_singleton] at h
    exact Or.inl (by simpa [similarWalkNode] using h)

theorem walkPreList (keys : List String) (cs : NodeList) (d : Node)
    (h : d ∈ subtreesList (similarWalkList keys cs)) :
    ∃ d0, d0 ∈ subtreesList cs ∧ d = similarWalkNode keys d0 ∧
      (d0.isComment = false → memStr (pyStrip (text_content d0)) keys = false) := by
  cases cs with
  | nil => simp [similarWalkList, subtreesList] at h
  | cons c cs =>
    by_cases hm : (!c.isComment && memStr (pyStrip (text_content c)) keys) = true
    · rw [similarWalkList, if_pos hm] at h
      rcases walkPreList keys cs d h with ⟨d0, hmem, heq, hcond⟩
      exact ⟨d0, mem_subtreesList_cons_right c d0 cs hmem, heq, hcond⟩
    · rw [similarWalkList, if_neg hm] at h
      rw [subtreesList, List.mem_append] at h
      rcases h with h | h
      · rcases walkPreNode keys c d h with heq | ⟨d0, hmem, heq, hcond⟩
        · refine ⟨c, mem_subtreesList_cons_left c c cs (self_mem_subtreesNode c), heq, ?_⟩
          intro hnc
          rcases hk : memStr (pyStrip (text_content c)) keys with _ | _
          · rfl
          · exact absurd (by simp [hnc, hk]) hm
        · have hmem' : d0 ∈ subtreesList (NodeList.cons c cs) :=
            mem_subtreesList_cons_left c d0 cs (mem_subtrees_of_mem_children c d0 hmem)
          exact ⟨d0, hmem', heq, hcond⟩
      · rcases walkPreList keys cs d h with ⟨d0, hmem, heq, hcond⟩
        exact ⟨d0, mem_subtreesList_cons_right c d0 cs hmem, heq, hcond⟩

end

mutual

theorem prunePreNode (vac : Node → Bool) (c d : Node)
    (h : d ∈ subtreesNode (pruneNode vac c)) :
    d = pruneNode vac c ∨
    ∃ d1, d1 ∈ subtreesList (childrenOfN c) ∧ d = pruneNode vac d1 ∧ vac d = false := by
  cases c with
  | element tg a tx cs tl =>
    rw [pruneNode, subtreesNode, List.mem_cons] at h
    rcases h with h | h
    · exact Or.inl (by simpa [pruneNode] using h)
    · rcases prunePreList vac cs d h with ⟨d1, hmem, heq, hvac⟩
      exact Or.inr ⟨d1, by simpa [childrenOfN] using hmem, heq, hvac⟩
  | comment s tl =>
    rw [pruneNode, subtreesNode, List.mem_singleton] at h
    exact Or.inl (by simpa [pruneNode] using h)

theorem prunePreList (vac : Node → Bool) (cs : NodeList) (d : Node)
    (h : d ∈ subtreesList (pruneList vac cs)) :
    ∃ d1, d1 ∈ subtreesList cs ∧ d = pruneNode vac d1 ∧ vac d = false := by
  cases cs with
  | nil => simp [pruneList, subtreesList] at h
  | cons c cs =>
    by_cases hv : vac (pruneNode vac c) = true
    · rw [pruneList] at h
      simp only [hv, if_pos] at h
      rcases prunePreList vac cs d h with ⟨d1, hmem, heq, hvac⟩
      exact ⟨d1, mem_subtreesList_cons_right c d1 cs hmem, heq, hvac⟩
    · rw [pruneList] at h
      simp only [hv, if_neg, Bool.not_eq_true] at h
      rw [subtreesList, List.mem_append] at h
      rcases h with h | h
      · rcases prunePreNode vac c d h with heq | ⟨d1, hmem, heq, hvac⟩
        · refine ⟨c, mem_subtreesList_cons_left c c cs (self_mem_subtreesNode c), heq, ?_⟩
          rw [heq]
          simpa using hv
        · have hmem' : d1 ∈ subtreesList (NodeList.cons c cs) :=
            mem_subtreesList_cons_left c d1 cs (mem_subtrees_of_mem_children c d1 hmem)
          exact ⟨d1, hmem', heq, hvac⟩
      · rcases prunePreList vac cs d h with ⟨d1, hmem, heq, hvac⟩
        exact ⟨d1, mem_subtreesList_cons_right c d1 cs hmem, heq, hvac⟩

end

/-- Soundness core shared by the two variants of the Duplicate Text
Remover: below the root, every survivor of the walk-then-prune composition
is the processed image of an original node whose examined stripped text was
not a key (the two variants differ only in the vacuousness predicate). -/
theorem simWalkPruneSoundness (vac : Node → Bool) (keys : List String) (t d : Node)
    (h : d ∈ subtreesList (childrenOfN (pruneNode vac (similarWalkNode keys t)))) :
    ∃ d0, d0 ∈ subtreesList (childrenOfN t) ∧
      d = pruneNode vac (similarWalkNode keys d0) ∧
      (d0.isComment = false → memStr (pyStrip (text_content d0)) keys = false) ∧
      vac d = false := by
  cases t with
  | comment s tl =>
    simp [similarWalkNode, pruneNode, childrenOfN, subtreesList] at h
  | element tg a tx cs tl =>
    have h' : d ∈ subtreesList (pruneList vac (similarWalkList keys cs)) := by
      simpa [similarWalkNode, pruneNode, childrenOfN] using h
    rcases prunePreList vac _ d h' with ⟨d1, hm1, heq1, hvac⟩
    rcases walkPreList keys cs d1 hm1 with ⟨d0, hm0, heq0, hcond⟩
    refine ⟨d0, by simpa [childrenOfN] using hm0, ?_, hcond, hvac⟩
    rw [heq1, heq0]

/-- **C5** (amended), both variants.  Soundness holds below the root, with
text measured at examination time: every node still present strictly below
the root of the target after `remove_similar_elements` returns — under
`clear_add_deleted` (first conjunct) as well as `clear_hp` (second
conjunct) — is the processed image of a node of the original target whose
stripped text content, as the document-order walk examined it (i.e.
computed in the original target, since no removal touches a node's subtree
before it is examined), was **not** a key of the reference document's
non-empty-text map; comments, which `//*` never selects, are exempt from
the text test.  (The root itself may survive with its text a key in either
variant: see the counterexample.) -/
theorem c5_amended_walk_soundness (ref t d : Node) :
    (d ∈ subtreesList (childrenOfN (remove_similar_elements_ad ref t).1) →
      ∃ d0, d0 ∈ subtreesList (childrenOfN t) ∧
        d = remove_empty_elements_ad
            (similarWalkNode (nonEmptyTextsList (.cons ref .nil)) d0) ∧
        (d0.isComment = false →
          memStr (pyStrip (text_content d0)) (nonEmptyTextsList (.cons ref .nil)) = false) ∧
        is_empty_element_ad d = false) ∧
    (d ∈ subtreesList (childrenOfN (remove_similar_elements_hp ref t)) →
      ∃ d0, d0 ∈ subtreesList (childrenOfN t) ∧
        d = remove_empty_elements_hp
            (similarWalkNode (nonEmptyTextsList (.cons ref .nil)) d0) ∧
        (d0.isComment = false →
          memStr (pyStrip (text_content d0)) (nonEmptyTextsList (.cons ref .nil)) = false) ∧
        is_empty_element_hp d = false) :=
  ⟨fun h => simWalkPruneSoundness is_empty_element_ad
      (nonEmptyTextsList (.cons ref .nil)) t d h,
   fun h => simWalkPruneSoundness is_empty_element_hp
      (nonEmptyTextsList (.cons ref .nil)) t d h⟩

/-- Reference document for the `c5_amended_walk_soundness` witness. -/
def c5RefW : Node := .element "div" [] "x" .nil ""

/-- Target document for the `c5_amended_walk_soundness` witness. -/
def c5TgtW : Node :=
  .element "div" [] "" (.cons (.element "p" [] "keep" .nil "") .nil) ""

/-- Witness for `c5_amended_walk_soundness`: the surviving `<p>keep</p>`
of the concrete target is the image of an original element whose text was
not a key of the reference map, under both variants. -/
theorem c5_amended_witness :
    ((.element "p" [] "keep" .nil "" : Node) ∈
        subtreesList (childrenOfN (remove_similar_elements_ad c5RefW c5TgtW).1)) ∧
    (∃ d0, d0 ∈ subtreesList (childrenOfN c5TgtW) ∧
      (.element "p" [] "keep" .nil "" : Node) = remove_empty_elements_ad
          (similarWalkNode (nonEmptyTextsList (.cons c5RefW .nil)) d0) ∧
      (d0.isComment = false →
        memStr (pyStrip (text_content d0)) (nonEmptyTextsList (.cons c5RefW .nil)) = false) ∧
      is_empty_element_ad (.element "p" [] "keep" .nil "" : Node) = false) ∧
    ((.element "p" [] "keep" .nil "" : Node) ∈
        subtreesList (childrenOfN (remove_similar_elements_hp c5RefW c5TgtW))) ∧
    (∃ d0, d0 ∈ subtreesList (childrenOfN c5TgtW) ∧
      (.element "p" [] "keep" .nil "" : Node) = remove_empty_elements_hp
          (similarWalkNode (nonEmptyTextsList (.cons c5RefW .nil)) d0) ∧
      (d0.isComment = false →
        memStr (pyStrip (text_content d0)) (nonEmptyTextsList (.cons c5RefW .nil)) = false) ∧
      is_empty_element_hp (.element "p" [] "keep" .nil "" : Node) = false) :=
  ⟨show (.element "p" [] "keep" .nil "" : Node) ∈ [(.element "p" [] "keep" .nil "" : Node)]
      from List.mem_singleton_self _,
   (c5_amended_walk_soundness c5RefW c5TgtW (.element "p" [] "keep" .nil "")).1
     (show (.element "p" [] "keep" .nil "" : Node) ∈ [(.element "p" [] "keep" .nil "" : Node)]
       from List.mem_singleton_self _),
   show (.element "p" [] "keep" .nil "" : Node) ∈ [(.element "p" [] "keep" .nil "" : Node)]
      from List.mem_singleton_self _,
   (c5_amended_walk_soundness c5RefW c5TgtW (.element "p" [] "keep" .nil "")).2
     (show (.element "p" [] "keep" .nil "" : Node) ∈ [(.element "p" [] "keep" .nil "" : Node)]
       from List.mem_singleton_self _)⟩
